import Mathlib

/-
Verification development for the ping-rs repository.

The definitions below are a shallow embedding of the Rust sources:
  - src/utils/validation.rs            (parameter validation)
  - src/protocols/icmp/ping/helpers.rs (calculate_timeout_info)
  - src/protocols/icmp/ping/sync.rs    (Pinger::new, ping_once, ping_multiple)
  - src/protocols/icmp/mod.rs          (execute_ping)
  - src/protocols/icmp/stream/sync.rs  (PingStream::new, _recv, is_active)
  - src/windows.rs                     (wait_for_next_interval)

Modelling conventions:
  - Machine integers are Nat or Int; i64 and i32 parameters coming from
    Python are Int, u64 and usize values are Nat.  Where the source relies
    on wrapping casts (the `as u32` cast of the probe sequence number) the
    embedding keeps the reduction modulo 2^32 explicit.
  - Instants and Durations are Nat nanoseconds; Duration::as_millis is
    division by 1000000.  The start instant of a run is normalised to 0,
    so an Instant equals the elapsed time since the start of the run.
  - The unsigned subtraction `count - 1` in calculate_timeout_info panics
    in Rust when count = 0; the embedding returns none in exactly that
    case, and some of the translated result otherwise.
  - A std::sync::mpsc channel, as seen by one consumer, is the list of
    events it will carry, each paired with its arrival instant, plus the
    instant at which the sending side is dropped (none when the producer
    never goes away).  recv_timeout on that view is deterministic.
-/

namespace PingRs

/-- Modelled from the spec: the EchoEvent taxonomy of section 3
(src/types/result.rs is not under src/; the variants are the ones
constructed and matched throughout the sources present here). -/
inductive PingResult where
  | Pong (rttNs : Nat) (line : String)
  | Timeout (line : String)
  | Unknown (line : String)
  | PingExited (code : Int) (msg : String)
deriving DecidableEq

/-- isExited mirrors the `matches!(r, PingResult::PingExited { .. })` tests
in sync.rs and stream/sync.rs. -/
def isExited : PingResult → Bool
  | .PingExited _ _ => true
  | _ => false

def isReply : PingResult → Bool
  | .Pong _ _ => true
  | _ => false

def isTimeoutEvent : PingResult → Bool
  | .Timeout _ => true
  | _ => false

/-! ## Validation (src/utils/validation.rs) -/

/-- i64_to_u64_positive: errors unless 0 < value; the u64 conversion of a
positive i64 never fails. -/
def i64_to_u64_positive (value : Int) : Option Nat :=
  if value ≤ 0 then none else some value.toNat

/-- i32_to_usize_positive: errors unless 0 < value. -/
def i32_to_usize_positive (value : Int) : Option Nat :=
  if value ≤ 0 then none else some value.toNat

/-- validate_interval_ms: positive, at least 100 and a multiple of 100. -/
def validate_interval_ms (value : Int) : Option Nat :=
  match i64_to_u64_positive value with
  | none => none
  | some v => if v < 100 then none else if v % 100 ≠ 0 then none else some v

/-- validate_count defers to i32_to_usize_positive. -/
def validate_count (count : Int) : Option Nat :=
  i32_to_usize_positive count

/-- validate_timeout_ms: none passes through; a given value must satisfy
validate_interval_ms and be at least interval_ms.  The result is in
milliseconds (the source wraps it in Duration::from_millis). -/
def validate_timeout_ms (timeout_ms : Option Int) (interval_ms : Nat) :
    Option (Option Nat) :=
  match timeout_ms with
  | none => some none
  | some t =>
    match validate_interval_ms t with
    | none => none
    | some tv => if tv < interval_ms then none else some (some tv)

/-! ## Pinger::new and PingStream::new configuration validation

Target extraction and the interface/ipv4/ipv6 flags never fail validation
and do not influence it; the embedding keeps the parameters that do:
interval_ms, dns_resolve_timeout_ms and (for the stream) max_count. -/

structure PingerCfg where
  interval_ms : Nat
  dns_timeout_ms : Option Nat
deriving DecidableEq

/-- Pinger::new (src/protocols/icmp/ping/sync.rs): validate interval_ms,
then the optional DNS resolution timeout. -/
def Pinger_new (interval_ms : Int) (dns_resolve_timeout_ms : Option Int) :
    Option PingerCfg :=
  match validate_interval_ms interval_ms with
  | none => none
  | some iv =>
    match dns_resolve_timeout_ms with
    | none => some ⟨iv, none⟩
    | some t =>
      match i64_to_u64_positive t with
      | none => none
      | some tv => some ⟨iv, some tv⟩

/-- PingStream::new validation part (src/protocols/icmp/stream/sync.rs):
validate interval_ms; a max_count must fit in i32 (try_into) and pass
validate_count; then the optional DNS timeout.  The spawn of the ping
producer that follows is independent of these values. -/
def PingStream_new (interval_ms : Int) (max_count : Option Nat)
    (dns_resolve_timeout_ms : Option Int) : Option (Nat × Option Nat) :=
  match validate_interval_ms interval_ms with
  | none => none
  | some iv =>
    match max_count with
    | some c =>
      if 2 ^ 31 ≤ c then none
      else
        match validate_count (c : Int) with
        | none => none
        | some _ =>
          match dns_resolve_timeout_ms with
          | none => some (iv, some c)
          | some t =>
            match i64_to_u64_positive t with
            | none => none
            | some _ => some (iv, some c)
    | none =>
      match dns_resolve_timeout_ms with
      | none => some (iv, none)
      | some t =>
        match i64_to_u64_positive t with
        | none => none
        | some _ => some (iv, none)

/-! ## Timeout scheduling (src/protocols/icmp/ping/helpers.rs) -/

def NS_PER_MS : Nat := 1000000

/-- calculate_timeout_info with start_time normalised to 0, so that now =
elapsedNs.  Returns none exactly when the Rust source panics on the
unsigned subtraction `count - 1` (count = 0 and the timeout branch is
reached); otherwise some (should_timeout, remaining wait, synthesized
Timeout).  All callers in the repository pass a validated count ≥ 1 and
an interval ≥ 100 ms. -/
def calculate_timeout_info (elapsedNs timeoutNs intervalMs count received_count : Nat) :
    Option (Bool × Option Nat × Option PingResult) :=
  if elapsedNs < timeoutNs then
    some (false, some (timeoutNs - elapsedNs), none)
  else
    let elapsedMs := elapsedNs / NS_PER_MS
    let last_sent_raw := if 0 < elapsedMs then (elapsedMs - 1) / intervalMs else 0
    if count = 0 then
      none
    else
      let last_sent_seq := min last_sent_raw (count - 1)
      let last_sent_time := intervalMs * NS_PER_MS * (last_sent_seq % 2 ^ 32)
      let grace_deadline := last_sent_time + intervalMs * NS_PER_MS
      if grace_deadline ≤ elapsedNs then
        some (true, none,
          if received_count ≤ last_sent_seq then
            some (.Timeout s!"Request timeout for icmp_seq {last_sent_seq}")
          else none)
      else
        some (false, some (grace_deadline - elapsedNs), none)

/-! ## The consumer view of an event channel -/

/-- One session channel as its single consumer observes it: the events it
will carry (arrival instant in ns, event), arrival instants nondecreasing,
and the instant the sending side is dropped (none: never). -/
structure TimedChan where
  events : List (Nat × PingResult)
  closeTime : Option Nat
deriving DecidableEq

inductive RecvRes where
  | got (e : PingResult) (t : Nat) (rest : List (Nat × PingResult))
  | timedOut (t : Nat)
  | disconnected
deriving DecidableEq

/-- Receiver::recv_timeout starting at instant t with bound d: an event due
by t + d is delivered (at its arrival instant, or immediately if already
queued); with no event due, a sender dropped by t + d yields Disconnected,
and otherwise the wait times out at t + d. -/
def recvTimeout (pending : List (Nat × PingResult)) (closeT : Option Nat)
    (t d : Nat) : RecvRes :=
  match pending with
  | (a, e) :: rest => if a ≤ t + d then .got e (max t a) rest else .timedOut (t + d)
  | [] =>
    match closeT with
    | some c => if c ≤ t + d then .disconnected else .timedOut (t + d)
    | none => .timedOut (t + d)

/-! ## Pinger::ping_once (src/protocols/icmp/ping/sync.rs) -/

/-- ping_once after execute_ping returned the channel: one recv_timeout with
the interval as the bound; a timed-out wait becomes a synthesized Timeout
for probe 0, a disconnect becomes the fatal error. -/
def ping_once (intervalMs : Nat) (ch : TimedChan) : Except String PingResult :=
  match recvTimeout ch.events ch.closeTime 0 (intervalMs * NS_PER_MS) with
  | .got e _ _ => .ok e
  | .timedOut _ => .ok (.Timeout "Request timeout for icmp_seq 0")
  | .disconnected => .error "Ping process disconnected"

/-! ## Pinger::ping_multiple (src/protocols/icmp/ping/sync.rs) -/

/-- The wait the sync loop uses when no overall timeout is set:
Duration::from_secs(3600), in ns. -/
def noTimeoutWaitNs : Nat := 3600 * 1000000000

/-- The receive loop of Pinger::ping_multiple.  fuel is an upper bound on
the remaining iterations that can consume an event; callers pass
fuel = count - received, which the loop preserves, so the fuel-exhausted
branch coincides with the `received_count >= count` break of the source.
The recursion consumes the pending list through recvTimeout. -/
def ping_multiple_loop (intervalMs count : Nat) (timeoutNs : Option Nat)
    (closeT : Option Nat) :
    Nat → List (Nat × PingResult) → Nat → Nat → List PingResult
  | 0, _, _, _ => []
  | fuel + 1, pending, received, t =>
    if count ≤ received then []
    else
      match (match timeoutNs with
             | some td => calculate_timeout_info t td intervalMs count received
             | none => some (false, some noTimeoutWaitNs, none)) with
      | none => []
      | some (shouldTimeout, remaining, synth) =>
        if shouldTimeout then
          match synth with
          | some r => [r]
          | none => []
        else
          match recvTimeout pending closeT t (remaining.getD 0) with
          | .got e tGot rest =>
            if isExited e then [e]
            else e :: ping_multiple_loop intervalMs count timeoutNs closeT
                   fuel rest (received + 1) tGot
          | .timedOut tEnd =>
            match timeoutNs with
            | some td =>
              match calculate_timeout_info tEnd td intervalMs count received with
              | some (_, _, some r) => [r]
              | _ => []
            | none => []
          | .disconnected => []

/-- Pinger::ping_multiple after validation and execute_ping: run the loop
from instant 0 with no event received yet. -/
def ping_multiple (intervalMs count : Nat) (timeoutNs : Option Nat)
    (ch : TimedChan) : List PingResult :=
  ping_multiple_loop intervalMs count timeoutNs ch.closeTime count ch.events 0 0

/-- Number of non-exited events of a result sequence. -/
def countNonExited (l : List PingResult) : Nat :=
  (l.filter (fun e => !isExited e)).length

/-- Every exited event of the sequence is its last element (hence there is
at most one). -/
def exitedOnlyLast : List PingResult → Bool
  | [] => true
  | e :: rest => if isExited e then rest.isEmpty else exitedOnlyLast rest

/-! ## execute_ping (src/protocols/icmp/mod.rs) -/

inductive PingCreationError where
  | HostnameError (host : String)
  | other (msg : String)
deriving DecidableEq

/-- Outcome of racing pinger::utils::resolve_target against the DNS
timeout: the lookup finished in time with an address, finished in time
with an error, or missed the deadline. -/
inductive ResolveOutcome where
  | resolved
  | failed (err : String)
  | timedOut
deriving DecidableEq

/-- The fallthrough of execute_ping into pinger::ping: a HostnameError is
converted into a channel that carries a single PingExited and closes;
other creation errors propagate; a started producer hands back its
channel. -/
def fallbackPing (source : Except PingCreationError TimedChan) :
    Except PingCreationError TimedChan :=
  match source with
  | .ok rx => .ok rx
  | .error (.HostnameError h) => .ok ⟨[(0, .PingExited 0 ("HostnameError: " ++ h))], some 0⟩
  | .error e => .error e

/-- execute_ping: with DNS pre-resolution enabled and a hostname target,
a resolution failure or a resolution timeout is converted into a channel
carrying a single PingExited (sent before the function returns, sender
dropped immediately); a successful resolution, a literal-address target
or disabled pre-resolution fall through to pinger::ping, whose outcome is
the source parameter. -/
def execute_ping (dnsEnable targetIsHostname : Bool) (resolve : ResolveOutcome)
    (source : Except PingCreationError TimedChan) :
    Except PingCreationError TimedChan :=
  if dnsEnable && targetIsHostname then
    match resolve with
    | .resolved => fallbackPing source
    | .failed e => .ok ⟨[(0, .PingExited 0 e)], some 0⟩
    | .timedOut => .ok ⟨[(0, .PingExited 0 "Hostname resolution timeout")], some 0⟩
  else fallbackPing source

/-! ## Native driver cadence (src/windows.rs) -/

/-- wait_for_next_interval: elapsed is Instant::duration_since, which
saturates at zero; the sleep is interval - elapsed while elapsed is short
of the interval, and zero otherwise. -/
def wait_for_next_interval (lastPingNs nowNs intervalNs : Nat) : Nat :=
  let elapsed := nowNs - lastPingNs
  if elapsed < intervalNs then intervalNs - elapsed else 0

/-! ## PingStream (src/protocols/icmp/stream/sync.rs) -/

/-- The channel as the stream holds it: queued events and whether the
sender has been dropped. -/
structure StreamChan where
  pending : List PingResult
  closed : Bool
deriving DecidableEq

inductive TryRecvRes where
  | got (e : PingResult) (c : StreamChan)
  | emptyChan
  | disconnected
deriving DecidableEq

/-- Receiver::try_recv. -/
def StreamChan.tryRecv (c : StreamChan) : TryRecvRes :=
  match c.pending with
  | e :: rest => .got e ⟨rest, c.closed⟩
  | [] => if c.closed then .disconnected else .emptyChan

/-- Receiver::recv.  none models the call blocking forever (open channel,
nothing queued, and the producer never sends again); some none is the
RecvError of a dropped sender; some (some _) delivers the head event. -/
def StreamChan.recvBlocking (c : StreamChan) :
    Option (Option (PingResult × StreamChan)) :=
  match c.pending with
  | e :: rest => some (some (e, ⟨rest, c.closed⟩))
  | [] => if c.closed then some none else none

structure StreamState where
  receiver : Option StreamChan
  max_count : Option Nat
  current_count : Nat
deriving DecidableEq

inductive PyErr where
  | stopIteration
  | runtimeError (msg : String)
deriving DecidableEq

/-- The max_count guard at the top of _recv and of is_active. -/
def StreamState.reachedMax (s : StreamState) : Bool :=
  match s.max_count with
  | some m => m ≤ s.current_count
  | none => false

/-- PingStream::is_active. -/
def StreamState.is_active (s : StreamState) : Bool :=
  if s.reachedMax then false else s.receiver.isSome

/-- PingStream::_recv.  The outer Option models blocking: none is a call
that never returns (blocking receive on an open, forever-silent channel);
some (r, s) is the returned PyResult together with the stream state after
the call.  The branching mirrors the source: the max_count guard first
(dropping the receiver), then iter / non_blocking / blocking receive on
the held receiver, then the post-processing chain that decides whether
the receiver is dropped and the count incremented. -/
def StreamState.recv_model (s : StreamState) (non_blocking iter : Bool) :
    Option (Except PyErr (Option PingResult) × StreamState) :=
  if s.reachedMax then
    some ((if iter then .error .stopIteration else .ok none),
          { s with receiver := none })
  else
    match s.receiver with
    | some c =>
      let step : Option (Except PyErr (Option PingResult) × StreamChan) :=
        if iter then
          match c.recvBlocking with
          | some (some (e, cNext)) => some (.ok (some e), cNext)
          | some none => some (.error .stopIteration, c)
          | none => none
        else if non_blocking then
          match c.tryRecv with
          | .got e cNext => some (.ok (some e), cNext)
          | .emptyChan => some (.ok none, c)
          | .disconnected => some (.ok none, c)
        else
          match c.recvBlocking with
          | some (some (e, cNext)) => some (.ok (some e), cNext)
          | some none => some (.ok none, c)
          | none => none
      match step with
      | none => none
      | some (r, cAfter) =>
        match r with
        | .ok (some (.PingExited code msg)) =>
          some (.ok (some (.PingExited code msg)),
                { s with receiver := none, current_count := s.current_count + 1 })
        | .ok none =>
          if non_blocking then
            some (.ok none, { s with receiver := some cAfter })
          else
            some (.ok none,
                  { s with receiver := none, current_count := s.current_count + 1 })
        | _ =>
          some (r, { s with receiver := some cAfter,
                            current_count := s.current_count + 1 })
    | none =>
      if iter then some (.error .stopIteration, s) else some (.ok none, s)

/-- A stream state that will never again deliver an event: the receiver is
gone, or the max_count guard fires on every call. -/
def StreamState.exhausted (s : StreamState) : Prop :=
  s.receiver = none ∨ s.reachedMax = true

/-! ## Helper lemmas -/

lemma validate_interval_ms_isSome (v : Int) :
    (validate_interval_ms v).isSome = true ↔ (100 ≤ v ∧ v % 100 = 0) := by
  unfold validate_interval_ms i64_to_u64_positive
  by_cases hv : v ≤ 0
  · simp only [hv, if_true]
    simp only [Option.isSome_none, Bool.false_eq_true, false_iff]
    omega
  · simp only [hv, if_false]
    split_ifs with h1 h2 <;> simp <;> omega

/-! ## C5 -/

/-- C5: construction of a Pinger or a PingStream (with default remaining
parameters) succeeds exactly when the interval value is a positive
multiple of 100 that is at least 100; every other integer is rejected
before any probing starts. -/
theorem C5_interval_validation (v : Int) :
    ((Pinger_new v none).isSome = true ↔ (100 ≤ v ∧ v % 100 = 0)) ∧
    ((PingStream_new v none none).isSome = true ↔ (100 ≤ v ∧ v % 100 = 0)) := by
  constructor
  · rw [← validate_interval_ms_isSome]
    cases h : validate_interval_ms v <;> simp [Pinger_new, h]
  · rw [← validate_interval_ms_isSome]
    cases h : validate_interval_ms v <;> simp [PingStream_new, h]

/-! ## C8 -/

/-- C8: the sleep before the next native-driver send is
max(0, interval - elapsedSinceLastSend), never negative and never more
than the interval. -/
theorem C8_cadence (last now i : Nat) (h : last ≤ now) :
    ((wait_for_next_interval last now i : Nat) : Int) =
      max 0 ((i : Int) - ((now : Int) - (last : Int))) ∧
    wait_for_next_interval last now i ≤ i := by
  simp only [wait_for_next_interval]
  constructor
  · rcases le_or_lt ((i : Int) - ((now : Int) - (last : Int))) 0 with hc | hc
    · rw [max_eq_left hc]
      split_ifs with hlt <;> omega
    · rw [max_eq_right hc.le]
      split_ifs with hlt <;> omega
  · split_ifs with hlt <;> omega

/-- C8 witness: at last = 0, now = 30, interval = 100 the computed wait is
70 = max(0, 100 - 30), and it does not exceed the interval. -/
theorem C8_cadence_witness :
    ((wait_for_next_interval 0 30 100 : Nat) : Int) =
      max 0 ((100 : Int) - ((30 : Int) - (0 : Int))) ∧
    wait_for_next_interval 0 30 100 ≤ 100 :=
  C8_cadence 0 30 100 (by omega)

/-! ## C9 -/

/-- C9: calculate_timeout_info is total only for count ≥ 1.  With count = 0
and the overall deadline already passed, the unsigned subtraction
count - 1 underflows (the embedding returns none exactly there); with
count ≥ 1 the function is total, every synthesized Timeout is labeled
with a sequence number strictly below count, and validate_count — the
gate every caller passes its count through — only produces positive
counts. -/
theorem C9_count_precondition :
    (∀ e tout i r, tout ≤ e → calculate_timeout_info e tout i 0 r = none) ∧
    (∀ e tout i c r, 1 ≤ c → (calculate_timeout_info e tout i c r).isSome = true) ∧
    (∀ e tout i c r b w res, 1 ≤ c →
        calculate_timeout_info e tout i c r = some (b, w, some res) →
        ∃ q, q < c ∧ res = .Timeout s!"Request timeout for icmp_seq {q}") ∧
    (∀ v n, validate_count v = some n → 1 ≤ n) := by
  refine ⟨?_, ?_, ?_, ?_⟩
  · intro e tout i r hto
    unfold calculate_timeout_info
    rw [if_neg (by omega)]
    simp
  · intro e tout i c r hc
    unfold calculate_timeout_info
    by_cases h1 : e < tout
    · simp [h1]
    · rw [if_neg h1]
      simp only [if_neg (by omega : ¬ c = 0)]
      split_ifs <;> simp
  · intro e tout i c r b w res hc heq
    unfold calculate_timeout_info at heq
    by_cases h1 : e < tout
    · rw [if_pos h1] at heq
      simp at heq
    · rw [if_neg h1] at heq
      simp only [if_neg (by omega : ¬ c = 0)] at heq
      generalize (if 0 < e / NS_PER_MS then (e / NS_PER_MS - 1) / i else 0) = raw at heq
      split_ifs at heq with hg hr
      · simp only [Option.some.injEq, Prod.mk.injEq] at heq
        refine ⟨_, ?_, heq.2.2.symm⟩
        have hle : min raw (c - 1) ≤ c - 1 := min_le_right _ _
        omega
      · simp at heq
      · simp at heq
  · intro v n h
    unfold validate_count i32_to_usize_positive at h
    split_ifs at h with hv
    simp_all
    omega

/-- C9 witness: a concrete underflow instance — count = 0 with the deadline
passed makes the function partial. -/
theorem C9_count_precondition_witness :
    calculate_timeout_info 200000000 100000000 100 0 0 = none :=
  C9_count_precondition.1 200000000 100000000 100 0 (by omega)

/-! ## C7 -/

/-- C7: a single fetch waits at most one interval for the first event: an
event due within the interval is returned as is; a wait that itself times
out yields a synthesized Timeout for probe 0 (not an error); a channel
that closes before any event yields the fatal disconnected error. -/
theorem C7_single_fetch (i : Nat) (ch : TimedChan) :
    (∀ a e rest, ch.events = (a, e) :: rest → a ≤ i * NS_PER_MS →
        ping_once i ch = .ok e) ∧
    (∀ a e rest, ch.events = (a, e) :: rest → i * NS_PER_MS < a →
        ping_once i ch = .ok (.Timeout "Request timeout for icmp_seq 0")) ∧
    (∀ c, ch.events = [] → ch.closeTime = some c → c ≤ i * NS_PER_MS →
        ping_once i ch = .error "Ping process disconnected") ∧
    (ch.events = [] → ch.closeTime = none →
        ping_once i ch = .ok (.Timeout "Request timeout for icmp_seq 0")) ∧
    (∀ c, ch.events = [] → ch.closeTime = some c → i * NS_PER_MS < c →
        ping_once i ch = .ok (.Timeout "Request timeout for icmp_seq 0")) := by
  refine ⟨?_, ?_, ?_, ?_, ?_⟩
  · intro a e rest hev ha
    simp [ping_once, recvTimeout, hev, ha]
  · intro a e rest hev ha
    have hna : ¬ a ≤ i * NS_PER_MS := by omega
    simp [ping_once, recvTimeout, hev, hna]
  · intro c hev hcl hc
    simp [ping_once, recvTimeout, hev, hcl, hc]
  · intro hev hcl
    simp [ping_once, recvTimeout, hev, hcl]
  · intro c hev hcl hc
    have hnc : ¬ c ≤ i * NS_PER_MS := by omega
    simp [ping_once, recvTimeout, hev, hcl, hnc]

/-- C7 witness: an event due at 5 ns is returned by a 200 ms single fetch. -/
theorem C7_single_fetch_witness :
    ping_once 200 ⟨[(5, .Pong 7 "r")], none⟩ = .ok (.Pong 7 "r") :=
  (C7_single_fetch 200 ⟨[(5, .Pong 7 "r")], none⟩).1 5 (.Pong 7 "r") [] rfl
    (by norm_num [NS_PER_MS])

/-! ## C3 -/

/-- C3: a failed or timed-out hostname resolution never surfaces as an
error from execute_ping: the caller still receives a channel, and that
channel delivers exactly one ExitedAbnormally event and no Reply or
Timeout events.  The same holds when pinger::ping itself reports a
HostnameError (literal-address family mismatch or pre-resolution
disabled). -/
theorem C3_resolution_failure (m : String)
    (source : Except PingCreationError TimedChan) :
    (∃ ch, execute_ping true true (.failed m) source = .ok ch ∧
        (ch.events.map Prod.snd).countP isExited = 1 ∧
        ch.events.all (fun p => !isReply p.2 && !isTimeoutEvent p.2) = true) ∧
    (∃ ch, execute_ping true true .timedOut source = .ok ch ∧
        (ch.events.map Prod.snd).countP isExited = 1 ∧
        ch.events.all (fun p => !isReply p.2 && !isTimeoutEvent p.2) = true) ∧
    (∀ dnsE isHost, ∃ ch,
        execute_ping dnsE isHost .resolved (.error (.HostnameError m)) = .ok ch ∧
        (ch.events.map Prod.snd).countP isExited = 1 ∧
        ch.events.all (fun p => !isReply p.2 && !isTimeoutEvent p.2) = true) := by
  refine ⟨?_, ?_, ?_⟩
  · refine ⟨⟨[(0, .PingExited 0 m)], some 0⟩, ?_, ?_, ?_⟩
    · simp [execute_ping]
    · simp [List.countP, List.countP.go, isExited]
    · simp [isReply, isTimeoutEvent]
  · refine ⟨⟨[(0, .PingExited 0 "Hostname resolution timeout")], some 0⟩, ?_, ?_, ?_⟩
    · simp [execute_ping]
    · simp [List.countP, List.countP.go, isExited]
    · simp [isReply, isTimeoutEvent]
  · intro dnsE isHost
    refine ⟨⟨[(0, .PingExited 0 ("HostnameError: " ++ m))], some 0⟩, ?_, ?_, ?_⟩
    · cases dnsE <;> cases isHost <;> simp [execute_ping, fallbackPing]
    · simp [List.countP, List.countP.go, isExited]
    · simp [isReply, isTimeoutEvent]

/-! ## C6 -/

/-- C6: every call on an exhausted streaming session is idempotent — it
returns StopIteration in iterator mode and no-event otherwise, delivers
no event, and leaves the session exhausted, for every consumption mode. -/
theorem C6_exhausted_idempotent (s : StreamState) (nb it : Bool)
    (h : s.exhausted) :
    ∃ sNext, s.recv_model nb it =
        some ((if it then .error .stopIteration else .ok none), sNext) ∧
      sNext.exhausted := by
  by_cases hm : s.reachedMax = true
  · refine ⟨{ s with receiver := none }, ?_, Or.inl rfl⟩
    simp [StreamState.recv_model, hm]
  · have hrec : s.receiver = none := by
      rcases h with h | h
      · exact h
      · exact absurd h hm
    refine ⟨s, ?_, Or.inl hrec⟩
    simp only [StreamState.recv_model, hm, Bool.false_eq_true, if_false, hrec]
    cases it <;> simp

/-- C6 witness: repeated calls on a session whose receiver is gone keep
signalling end-of-sequence in iterator mode. -/
theorem C6_exhausted_idempotent_witness :
    ∃ sNext, StreamState.recv_model ⟨none, none, 0⟩ false true =
        some (.error .stopIteration, sNext) ∧ sNext.exhausted := by
  have h := C6_exhausted_idempotent ⟨none, none, 0⟩ false true (Or.inl rfl)
  simpa using h

/-! ## C10 -/

/-- C10 counterexample: on an active stream whose producer channel is closed,
an iterator-mode call raises StopIteration but retains the receiver (and
increments the count) — it does not drop the receiver as the claim
states. -/
theorem C10_counterexample :
    StreamState.recv_model ⟨some ⟨[], true⟩, none, 0⟩ false true =
      some (.error .stopIteration, ⟨some ⟨[], true⟩, none, 1⟩) ∧
    (⟨some ⟨[], true⟩, none, 1⟩ : StreamState).receiver ≠ none := by
  constructor
  · rfl
  · simp

/-- C10 amended: on an active stream (max_count not reached) whose channel
is closed and drained, the non-blocking poll returns no-event with the
state unchanged — exactly as for an empty-but-open channel — so the
receiver is retained, receivedCount is not incremented and is_active
stays true; a blocking recv returns no-event and drops the receiver; an
iterator-mode call signals end-of-sequence but retains the receiver while
incrementing the count; and a delivered ExitedAbnormally event drops the
receiver in every mode. -/
theorem C10_amended :
    (∀ (s : StreamState) (c : StreamChan),
        s.receiver = some c → c.pending = [] → c.closed = true →
        s.reachedMax = false →
        s.is_active = true ∧
        s.recv_model true false = some (.ok none, s) ∧
        s.recv_model false false =
          some (.ok none, { s with receiver := none,
                                   current_count := s.current_count + 1 }) ∧
        s.recv_model false true =
          some (.error .stopIteration,
                { s with receiver := some c,
                         current_count := s.current_count + 1 })) ∧
    (∀ (s : StreamState) (c : StreamChan),
        s.receiver = some c → c.pending = [] → c.closed = false →
        s.reachedMax = false →
        s.recv_model true false = some (.ok none, s)) ∧
    (∀ (s : StreamState) (c : StreamChan) code msg rest nb it,
        s.receiver = some c →
        c.pending = .PingExited code msg :: rest → s.reachedMax = false →
        s.recv_model nb it =
          some (.ok (some (.PingExited code msg)),
                { s with receiver := none,
                         current_count := s.current_count + 1 })) := by
  refine ⟨?_, ?_, ?_⟩
  · intro s c h1 h2 h3 h4
    obtain ⟨rec, mx, cnt⟩ := s
    obtain ⟨pend, cl⟩ := c
    simp only at h1 h2 h3
    subst h1 h2 h3
    refine ⟨?_, ?_, ?_, ?_⟩
    · simp [StreamState.is_active, h4]
    · simp [StreamState.recv_model, h4, StreamChan.tryRecv]
    · simp [StreamState.recv_model, h4, StreamChan.recvBlocking]
    · simp [StreamState.recv_model, h4, StreamChan.recvBlocking]
  · intro s c h1 h2 h3 h4
    obtain ⟨rec, mx, cnt⟩ := s
    obtain ⟨pend, cl⟩ := c
    simp only at h1 h2 h3
    subst h1 h2 h3
    simp [StreamState.recv_model, h4, StreamChan.tryRecv]
  · intro s c code msg rest nb it h1 h2 h3
    obtain ⟨rec, mx, cnt⟩ := s
    obtain ⟨pend, cl⟩ := c
    simp only at h1 h2
    subst h1 h2
    cases nb <;> cases it <;>
      simp [StreamState.recv_model, h3, StreamChan.tryRecv, StreamChan.recvBlocking]

/-- C10 witness: the amended behavior at a concrete closed, drained, active
stream state. -/
theorem C10_amended_witness :
    (⟨some ⟨[], true⟩, none, 0⟩ : StreamState).is_active = true ∧
    StreamState.recv_model ⟨some ⟨[], true⟩, none, 0⟩ true false =
      some (.ok none, ⟨some ⟨[], true⟩, none, 0⟩) ∧
    StreamState.recv_model ⟨some ⟨[], true⟩, none, 0⟩ false false =
      some (.ok none, ⟨none, none, 1⟩) ∧
    StreamState.recv_model ⟨some ⟨[], true⟩, none, 0⟩ false true =
      some (.error .stopIteration, ⟨some ⟨[], true⟩, none, 1⟩) :=
  C10_amended.1 ⟨some ⟨[], true⟩, none, 0⟩ ⟨[], true⟩ rfl rfl rfl rfl

/-! ## C1 -/

/-- C1 counterexample: at elapsed = 150 ms with overallTimeout = 150 ms,
interval = 100 ms, N = 2 and receivedCount = 1, the claimed behavior is
to stop and synthesize a Timeout for lastDueSeq = min(1, floor(149/100))
= 1 (since receivedCount = 1 ≤ 1); the code instead reports
should_timeout = false with a further 50 ms wait and synthesizes
nothing — the wait is not stopped at that instant. -/
theorem C1_counterexample :
    150000000 ≤ (150000000 : Nat) ∧
    (1 : Nat) ≤ min ((150000000 / NS_PER_MS - 1) / 100) (2 - 1) ∧
    calculate_timeout_info 150000000 150000000 100 2 1 =
      some (false, some 50000000, none) := by
  refine ⟨le_refl _, by decide, by decide⟩

/-- C1 amended: when a wait is about to begin with elapsed ≥ overallTimeout
(and count ≥ 1 within i32 range, at least one full millisecond elapsed),
the run computes lastDueSeq = min(N-1, floor((elapsedMs-1)/interval)) and
the grace deadline (lastDueSeq+1)·interval: before the grace deadline it
keeps waiting until it with no synthesis; at or past it, it stops —
synthesizing exactly one Timeout labeled lastDueSeq iff
receivedCount ≤ lastDueSeq.  In particular, at an exact probe boundary
elapsed = k·interval with 1 ≤ k ≤ N, a Timeout for probe k-1 is
synthesized iff that probe has not yet been answered (receivedCount < k). -/
theorem C1_amended (e tout i c r : Nat) (hc : 1 ≤ c) (hc32 : c ≤ 2 ^ 32)
    (hto : tout ≤ e) (hms : NS_PER_MS ≤ e) :
    (calculate_timeout_info e tout i c r =
      (if i * NS_PER_MS * (min ((e / NS_PER_MS - 1) / i) (c - 1) + 1) ≤ e then
        some (true, none,
          if r ≤ min ((e / NS_PER_MS - 1) / i) (c - 1) then
            some (.Timeout
              s!"Request timeout for icmp_seq {min ((e / NS_PER_MS - 1) / i) (c - 1)}")
          else none)
      else
        some (false,
          some (i * NS_PER_MS * (min ((e / NS_PER_MS - 1) / i) (c - 1) + 1) - e),
          none))) ∧
    (∀ k, 1 ≤ k → k ≤ c → 1 ≤ i → e = k * i * NS_PER_MS →
      calculate_timeout_info e tout i c r =
        some (true, none,
          if r < k then some (.Timeout s!"Request timeout for icmp_seq {k - 1}")
          else none)) := by
  have hems : 0 < e / NS_PER_MS := by
    apply Nat.div_pos hms
    norm_num [NS_PER_MS]
  have main : calculate_timeout_info e tout i c r =
      (if i * NS_PER_MS * (min ((e / NS_PER_MS - 1) / i) (c - 1) + 1) ≤ e then
        some (true, none,
          if r ≤ min ((e / NS_PER_MS - 1) / i) (c - 1) then
            some (.Timeout
              s!"Request timeout for icmp_seq {min ((e / NS_PER_MS - 1) / i) (c - 1)}")
          else none)
      else
        some (false,
          some (i * NS_PER_MS * (min ((e / NS_PER_MS - 1) / i) (c - 1) + 1) - e),
          none)) := by
    simp only [calculate_timeout_info]
    rw [if_neg (by omega : ¬ e < tout)]
    rw [if_pos hems]
    rw [if_neg (by omega : ¬ c = 0)]
    have hq32 : min ((e / NS_PER_MS - 1) / i) (c - 1) % 2 ^ 32 =
        min ((e / NS_PER_MS - 1) / i) (c - 1) := by
      apply Nat.mod_eq_of_lt
      have hle : min ((e / NS_PER_MS - 1) / i) (c - 1) ≤ c - 1 := min_le_right _ _
      omega
    rw [hq32]
    have harith : i * NS_PER_MS * min ((e / NS_PER_MS - 1) / i) (c - 1)
        + i * NS_PER_MS
        = i * NS_PER_MS * (min ((e / NS_PER_MS - 1) / i) (c - 1) + 1) := by ring
    rw [harith]
  refine ⟨main, ?_⟩
  intro k hk hkc hi he
  subst he
  rw [main]
  have h1 : k * i * NS_PER_MS / NS_PER_MS = k * i :=
    Nat.mul_div_cancel _ (by norm_num [NS_PER_MS])
  rw [h1]
  have h2 : (k * i - 1) / i = k - 1 := by
    have hki : k * i = i * (k - 1) + i := by
      cases k with
      | zero => omega
      | succ n => simp [Nat.succ_sub_one]; ring
    have hrw : k * i - 1 = (i - 1) + i * (k - 1) := by omega
    rw [hrw, Nat.add_mul_div_left _ _ (by omega : 0 < i),
        Nat.div_eq_of_lt (by omega : i - 1 < i)]
    omega
  rw [h2]
  have h3 : min (k - 1) (c - 1) = k - 1 := min_eq_left (by omega)
  rw [h3]
  have h4 : i * NS_PER_MS * (k - 1 + 1) = k * i * NS_PER_MS := by
    have hk1 : k - 1 + 1 = k := by omega
    rw [hk1]; ring
  rw [h4]
  rw [if_pos (le_refl (k * i * NS_PER_MS))]
  by_cases hr : r < k
  · rw [if_pos (by omega : r ≤ k - 1), if_pos hr]
  · rw [if_neg (by omega : ¬ r ≤ k - 1), if_neg hr]

/-- C1 witness for the amended claim: the boundary case k = 2 at
elapsed = timeout = 200 ms, interval = 100 ms, N = 2, no result received:
a Timeout for probe 1 is synthesized and the run stops. -/
theorem C1_amended_witness :
    calculate_timeout_info 200000000 200000000 100 2 0 =
      some (true, none, some (.Timeout "Request timeout for icmp_seq 1")) := by
  have h := (C1_amended 200000000 200000000 100 2 0 (by norm_num) (by norm_num)
      (le_refl 200000000) (by norm_num [NS_PER_MS])).2 2 (by norm_num)
      (le_refl 2) (by norm_num) (by norm_num [NS_PER_MS])
  rw [h]
  decide

/-! ## Run-level lemmas for bounded runs without an overall timeout -/

lemma loop_none_step (i c : Nat) (closeT : Option Nat) (fuel : Nat)
    (pending : List (Nat × PingResult)) (received t : Nat)
    (h : ¬ c ≤ received) :
    ping_multiple_loop i c none closeT (fuel + 1) pending received t =
      match recvTimeout pending closeT t noTimeoutWaitNs with
      | .got e tGot rest =>
        if isExited e then [e]
        else e :: ping_multiple_loop i c none closeT fuel rest (received + 1) tGot
      | .timedOut _ => []
      | .disconnected => [] := by
  simp only [ping_multiple_loop, if_neg h, Option.getD_some]
  rw [if_neg (by simp : ¬ false = true)]

lemma loop_none_nonExited_le (i c : Nat) (closeT : Option Nat) :
    ∀ fuel pending received t,
      countNonExited (ping_multiple_loop i c none closeT fuel pending received t)
        ≤ c - received := by
  intro fuel
  induction fuel with
  | zero =>
    intro pending received t
    simp [ping_multiple_loop, countNonExited]
  | succ n ih =>
    intro pending received t
    by_cases hrc : c ≤ received
    · simp [ping_multiple_loop, hrc, countNonExited]
    · rw [loop_none_step i c closeT n pending received t hrc]
      cases hrt : recvTimeout pending closeT t noTimeoutWaitNs with
      | got e tGot rest =>
        by_cases hex : isExited e = true
        · simp [hex, countNonExited, isExited]
          cases e <;> simp_all [isExited]
        · have hb := ih rest (received + 1) tGot
          simp only [if_neg hex]
          simp only [countNonExited, List.filter_cons] at hb ⊢
          simp only [Bool.not_eq_true] at hex
          simp [hex]
          omega
      | timedOut tEnd => simp [countNonExited]
      | disconnected => simp [countNonExited]

lemma loop_none_exitedOnlyLast (i c : Nat) (closeT : Option Nat) :
    ∀ fuel pending received t,
      exitedOnlyLast (ping_multiple_loop i c none closeT fuel pending received t)
        = true := by
  intro fuel
  induction fuel with
  | zero =>
    intro pending received t
    simp [ping_multiple_loop, exitedOnlyLast]
  | succ n ih =>
    intro pending received t
    by_cases hrc : c ≤ received
    · simp [ping_multiple_loop, hrc, exitedOnlyLast]
    · rw [loop_none_step i c closeT n pending received t hrc]
      cases hrt : recvTimeout pending closeT t noTimeoutWaitNs with
      | got e tGot rest =>
        by_cases hex : isExited e = true
        · simp [hex, exitedOnlyLast]
        · simp only [if_neg hex]
          simp [exitedOnlyLast, hex, ih rest (received + 1) tGot]
      | timedOut tEnd => simp [exitedOnlyLast]
      | disconnected => simp [exitedOnlyLast]

lemma loop_none_from_channel (i c : Nat) (closeT : Option Nat) :
    ∀ fuel pending received t, ∃ suf,
      pending.map Prod.snd =
        ping_multiple_loop i c none closeT fuel pending received t ++ suf := by
  intro fuel
  induction fuel with
  | zero =>
    intro pending received t
    exact ⟨pending.map Prod.snd, by simp [ping_multiple_loop]⟩
  | succ n ih =>
    intro pending received t
    by_cases hrc : c ≤ received
    · exact ⟨pending.map Prod.snd, by simp [ping_multiple_loop, hrc]⟩
    · rw [loop_none_step i c closeT n pending received t hrc]
      cases pending with
      | nil =>
        refine ⟨[], ?_⟩
        cases closeT with
        | none => simp [recvTimeout]
        | some cc =>
          simp only [recvTimeout]
          split_ifs <;> simp
      | cons hd tl =>
        obtain ⟨a, e⟩ := hd
        simp only [recvTimeout]
        by_cases ha : a ≤ t + noTimeoutWaitNs
        · rw [if_pos ha]
          by_cases hex : isExited e = true
          · exact ⟨tl.map Prod.snd, by simp [hex]⟩
          · obtain ⟨suf, hsuf⟩ := ih tl (received + 1) (max t a)
            refine ⟨suf, ?_⟩
            simp only [if_neg hex, List.map_cons, List.cons_append]
            rw [hsuf]
        · rw [if_neg ha]
          exact ⟨(a, e) :: tl |>.map Prod.snd, by simp⟩

/-! ## C2 -/

/-- C2 counterexample: the run count = 1, no overall timeout, against a
channel that closes before delivering anything returns the empty
sequence — neither exactly one non-exited event nor a sequence ending in
an ExitedAbnormally, so the claimed dichotomy fails. -/
theorem C2_counterexample :
    ping_multiple 100 1 none ⟨[], some 0⟩ = [] ∧
    ¬ (countNonExited (ping_multiple 100 1 none ⟨[], some 0⟩) = 1 ∨
       ∃ pre ex, ping_multiple 100 1 none ⟨[], some 0⟩ = pre ++ [ex] ∧
         isExited ex = true) := by
  have h : ping_multiple 100 1 none ⟨[], some 0⟩ = [] := by decide
  refine ⟨h, ?_⟩
  rw [h]
  rintro (h1 | ⟨pre, ex, hpe, _⟩)
  · simp [countNonExited] at h1
  · cases pre <;> simp at hpe

/-- C2 amended: a bounded run with count = N and no overall timeout yields
at most N non-exited events, and any ExitedAbnormally event in the result
is unique and final; the run may also return fewer than N non-exited
events with no ExitedAbnormally, when the channel closes or stays silent
through the 3600-second fallback wait. -/
theorem C2_amended (i c : Nat) (ch : TimedChan) :
    countNonExited (ping_multiple i c none ch) ≤ c ∧
    exitedOnlyLast (ping_multiple i c none ch) = true := by
  constructor
  · have h := loop_none_nonExited_le i c ch.closeTime c ch.events 0 0
    simpa using h
  · exact loop_none_exitedOnlyLast i c ch.closeTime c ch.events 0 0

/-! ## C4 -/

/-- C4 counterexample: with no overall timeout, count = 1 and a reply that
arrives 4000 s in, the run returns the empty sequence: the wait is not
indefinite (it is the 3600 s fallback), and the run stopped with neither
count reached, nor an ExitedAbnormally, nor channel closure (closeTime is
none). -/
theorem C4_counterexample :
    ping_multiple 100 1 none ⟨[(4000000000000, .Pong 5 "r")], none⟩ = [] ∧
    ¬ (countNonExited
         (ping_multiple 100 1 none ⟨[(4000000000000, .Pong 5 "r")], none⟩) = 1 ∨
       ∃ pre ex,
         ping_multiple 100 1 none ⟨[(4000000000000, .Pong 5 "r")], none⟩ =
           pre ++ [ex] ∧ isExited ex = true) := by
  have h : ping_multiple 100 1 none ⟨[(4000000000000, .Pong 5 "r")], none⟩ = [] := by
    decide
  refine ⟨h, ?_⟩
  rw [h]
  rintro (h1 | ⟨pre, ex, hpe, _⟩)
  · simp [countNonExited] at h1
  · cases pre <;> simp at hpe

/-- C4 amended: with the overall timeout unset, the sync bounded run never
synthesizes a Timeout — its result is a prefix of the real event sequence
of the channel — but each wait is bounded by the 3600-second fallback
rather than indefinite: an event due strictly after that fallback
deadline is not awaited and the iteration stops empty-handed. -/
theorem C4_amended (i c : Nat) (ch : TimedChan) :
    (∃ suf, ch.events.map Prod.snd = ping_multiple i c none ch ++ suf) ∧
    (∀ a e rest received t fuel, received < c → t + noTimeoutWaitNs < a →
        ping_multiple_loop i c none ch.closeTime (fuel + 1) ((a, e) :: rest)
          received t = []) := by
  constructor
  · exact loop_none_from_channel i c ch.closeTime c ch.events 0 0
  · intro a e rest received t fuel hrc ha
    rw [loop_none_step i c ch.closeTime fuel ((a, e) :: rest) received t
      (by omega)]
    simp only [recvTimeout]
    rw [if_neg (by omega : ¬ a ≤ t + noTimeoutWaitNs)]

/-- C4 amended witness: a reply due at 9000 s is not awaited by a run with
no overall timeout; the 3600 s fallback wait elapses first and the run
stops empty. -/
theorem C4_amended_witness :
    ping_multiple_loop 100 1 none none 1 [(9000000000000, .Pong 1 "x")] 0 0
      = [] :=
  (C4_amended 100 1 ⟨[(9000000000000, .Pong 1 "x")], none⟩).2
    9000000000000 (.Pong 1 "x") [] 0 0 0 (by omega)
    (by norm_num [noTimeoutWaitNs])

end PingRs
